import Mathlib

/-
Formal model of the ESG Insight Hub evidence ingestion and compliance
gap detection pipeline. The repository ships the dashboard UI
(src/frontend) and infrastructure scaffolding; the pipeline core
(Taxonomy Store, Mapper, Evidence Ledger, Gap Detector, Alert Engine,
Pipeline Orchestrator) is given only by the specification, so those
components are modelled here from the spec. The UI components that do
exist in src/ (Dashboard.tsx, the DataUpload component) are embedded
directly from their source. Scores and confidences in [0,1] are
represented in hundredths (0.75 is written 75).
-/

namespace ESG

/-- Requirement node identifier (spec section 3, RequirementNode.id). -/
abbrev ReqId := String

/-- Evidence type tag (spec section 3, ExtractedDataPoint.evidenceType). -/
abbrev EvidenceType := String

/-- Reporting period identifier (spec sections 3 and 4.4). -/
abbrev Period := String

/-- Modelled from the spec: RequirementNode of the Taxonomy Store (spec
section 3) — id, code, label, required evidence types, validity window in
days, the periods it applies to, and its depth in the taxonomy tree (used
for the Mapper's specificity tie-break, spec section 4.2). The Taxonomy
Store itself is not in src/. -/
structure RequirementNode where
  id : ReqId
  code : String
  label : String
  requiredEvidenceTypes : List EvidenceType
  validityPeriod : Nat
  appliesTo : List Period
  depth : Nat
  deriving Repr, DecidableEq

/-- Modelled from the spec: status of a LedgerEntry (spec section 3). -/
inductive EntryStatus where
  | Active
  | Expired
  | Superseded
  deriving Repr, DecidableEq

/-- Modelled from the spec: an Evidence Ledger entry (spec section 3):
requirement, data point, reporting period, confidence (hundredths),
acceptance time and validity horizon in days, and status. The Evidence
Ledger is not in src/. -/
structure LedgerEntry where
  requirementId : ReqId
  dataPointId : String
  reportingPeriod : Period
  confidence : Nat
  acceptedAt : Nat
  validUntil : Nat
  status : EntryStatus
  deriving Repr, DecidableEq

/-- Modelled from the spec: a commit request handed to the Evidence
Ledger (spec section 4.3 contract, plus the confidence the supersede
rule compares). -/
structure CommitReq where
  requirementId : ReqId
  dataPointId : String
  reportingPeriod : Period
  confidence : Nat
  acceptedAt : Nat
  validUntil : Nat
  deriving Repr, DecidableEq

/-- Tests whether a ledger entry is for the given (requirementId,
reportingPeriod) key. -/
def sameKeyAs (rid : ReqId) (p : Period) (e : LedgerEntry) : Bool :=
  decide (e.requirementId = rid ∧ e.reportingPeriod = p)

/-- Tests whether a ledger entry is Active for the given key. -/
def activeKeyP (rid : ReqId) (p : Period) (e : LedgerEntry) : Bool :=
  sameKeyAs rid p e && decide (e.status = EntryStatus.Active)

/-- Modelled from the spec: whether an existing Active entry for the
commit's key already has at least the incoming confidence, in which case
the incoming commit does not supersede it (spec sections 4.2 and 4.3:
supersession is triggered by a later, higher-confidence commit). -/
def beatsExisting (ledger : List LedgerEntry) (c : CommitReq) : Bool :=
  ledger.any (fun e => activeKeyP c.requirementId c.reportingPeriod e &&
    decide (c.confidence ≤ e.confidence))

/-- Builds the ledger entry recorded for a commit request. -/
def entryOf (c : CommitReq) (st : EntryStatus) : LedgerEntry :=
  ⟨c.requirementId, c.dataPointId, c.reportingPeriod, c.confidence,
    c.acceptedAt, c.validUntil, st⟩

/-- Marks every Active entry for the given key Superseded, leaving all
other entries untouched. -/
def supersedeKey (rid : ReqId) (p : Period) (ledger : List LedgerEntry) :
    List LedgerEntry :=
  ledger.map (fun e =>
    if activeKeyP rid p e then { e with status := EntryStatus.Superseded } else e)

/-- Modelled from the spec: Evidence Ledger commit (spec section 4.3).
Append-only: the new entry is recorded in every case. If an existing
Active entry for the same (requirementId, reportingPeriod) key has at
least the incoming confidence, the new entry is recorded Superseded;
otherwise the new entry becomes Active and the previously Active entries
for the key are marked Superseded, keeping the highest-confidence entry
Active (spec section 4.2 last sentence). The Evidence Ledger is not in
src/. -/
def commit (ledger : List LedgerEntry) (c : CommitReq) : List LedgerEntry :=
  if beatsExisting ledger c then
    ledger ++ [entryOf c EntryStatus.Superseded]
  else
    supersedeKey c.requirementId c.reportingPeriod ledger ++ [entryOf c EntryStatus.Active]

/-- Modelled from the spec: the periodic expiry sweep (spec section 4.3,
expire(now)): every Active entry whose validUntil has passed transitions
to Expired; nothing else is touched. -/
def expireSweep (now : Nat) (ledger : List LedgerEntry) : List LedgerEntry :=
  ledger.map (fun e =>
    if decide (e.status = EntryStatus.Active) && decide (e.validUntil < now) then
      { e with status := EntryStatus.Expired }
    else e)

/-- Modelled from the spec: a single Evidence Ledger mutation — either a
commit or an expiry sweep (spec section 4.3). -/
inductive LedgerOp where
  | commitOp (c : CommitReq)
  | expireOp (now : Nat)
  deriving Repr, DecidableEq

/-- Applies one ledger operation. -/
def applyOp (ledger : List LedgerEntry) : LedgerOp → List LedgerEntry
  | LedgerOp.commitOp c => commit ledger c
  | LedgerOp.expireOp now => expireSweep now ledger

/-- Applies a sequence of ledger operations, oldest first. -/
def applyOps (ops : List LedgerOp) (ledger : List LedgerEntry) : List LedgerEntry :=
  ops.foldl applyOp ledger

/-- Applies a sequence of commits, oldest first. -/
def applyCommits (cs : List CommitReq) (ledger : List LedgerEntry) : List LedgerEntry :=
  cs.foldl commit ledger

/-- Number of Active entries for a (requirementId, reportingPeriod) key. -/
def activeCount (ledger : List LedgerEntry) (rid : ReqId) (p : Period) : Nat :=
  ledger.countP (activeKeyP rid p)

/-- Ledger invariant (2) of spec section 3: at most one LedgerEntry per
(requirementId, reportingPeriod) is Active at a time. -/
def AtMostOneActive (ledger : List LedgerEntry) : Prop :=
  ∀ rid p, activeCount ledger rid p ≤ 1

/-- Every Active entry has maximal confidence among the entries recorded
for its key (spec section 4.2: the Ledger keeps the highest-confidence
data point Active). -/
def ActiveIsMax (ledger : List LedgerEntry) : Prop :=
  ∀ e ∈ ledger, e.status = EntryStatus.Active →
    ∀ e' ∈ ledger, e'.requirementId = e.requirementId →
      e'.reportingPeriod = e.reportingPeriod → e'.confidence ≤ e.confidence

/-- Every recorded key still has an Active entry (no commit-only state
strands a key with only Superseded entries). -/
def KeyHasActive (ledger : List LedgerEntry) : Prop :=
  ∀ e ∈ ledger, ∃ a ∈ ledger, a.status = EntryStatus.Active ∧
    a.requirementId = e.requirementId ∧ a.reportingPeriod = e.reportingPeriod

/-- In a commit-only history every entry is Active or Superseded (the
remaining status, Expired, arises only from the expiry sweep). -/
def ActiveOrSuperseded (ledger : List LedgerEntry) : Prop :=
  ∀ e ∈ ledger, e.status = EntryStatus.Active ∨ e.status = EntryStatus.Superseded

/-- Modelled from the spec: reason carried by a Gap (spec section 3). -/
inductive GapReason where
  | Unmet
  | Expiring
  | Expired
  deriving Repr, DecidableEq

/-- Modelled from the spec: a detected Gap (spec section 3): requirement,
reason, days until expiry when the reason is Expiring, and whether the
Gap is a purely informational non-leaf roll-up (spec section 4.4). The
Gap Detector is not in src/. -/
structure Gap where
  requirementId : ReqId
  reason : GapReason
  daysUntilExpiry : Option Nat
  informational : Bool
  deriving Repr, DecidableEq

/-- Default expiry-warning window in days (spec sections 4.4 and 9). -/
def defaultWarningWindow : Nat := 30

/-- Modelled from the spec: lookup of the Active ledger entry for a
requirement and period in a ledger snapshot (spec section 4.4). -/
def activeEntryFor (ledger : List LedgerEntry) (rid : ReqId) (p : Period) :
    Option LedgerEntry :=
  ledger.find? (activeKeyP rid p)

/-- Modelled from the spec: the Gap Detector's classification of one leaf
requirement (spec section 4.4): no Active entry gives Unmet; an Active
entry already past validUntil gives Expired (reported pre-emptively
before the sweep runs); an Active entry within the warning window w of
now gives Expiring with daysUntilExpiry computed; otherwise no Gap. -/
def detectLeaf (ledger : List LedgerEntry) (now w : Nat) (r : RequirementNode)
    (p : Period) : Option Gap :=
  match activeEntryFor ledger r.id p with
  | none => some ⟨r.id, GapReason.Unmet, none, false⟩
  | some e =>
    if e.validUntil < now then some ⟨r.id, GapReason.Expired, none, false⟩
    else if e.validUntil - now ≤ w then
      some ⟨r.id, GapReason.Expiring, some (e.validUntil - now), false⟩
    else none

/-- Whether a requirement is in scope for the reporting period. -/
def applicable (p : Period) (r : RequirementNode) : Bool :=
  r.appliesTo.contains p

/-- Modelled from the spec: the versioned taxonomy tree (spec sections 3
and 9) — an explicit tree of requirement nodes; a node with no children
is a leaf obligation. -/
inductive ReqTree where
  | node (r : RequirementNode) (children : List ReqTree)
  deriving Repr

mutual

/-- Leaf descendants of a taxonomy subtree (a childless node is its own
single leaf descendant). -/
def leafDescendants : ReqTree → List RequirementNode
  | ReqTree.node r [] => [r]
  | ReqTree.node _ (c :: cs) => leafDescendants c ++ leafDescendantsF cs

/-- Leaf descendants of a taxonomy forest. -/
def leafDescendantsF : List ReqTree → List RequirementNode
  | [] => []
  | t :: ts => leafDescendants t ++ leafDescendantsF ts

end

mutual

/-- Modelled from the spec: bottom-up aggregation over the taxonomy
(spec section 4.4) — the number of unsatisfied leaf descendants of a
subtree, for a given leaf-satisfaction predicate. -/
def unsatLeafCount (sat : RequirementNode → Bool) : ReqTree → Nat
  | ReqTree.node r [] => if sat r then 0 else 1
  | ReqTree.node _ (c :: cs) => unsatLeafCount sat c + unsatLeafCountF sat cs

/-- Bottom-up unsatisfied-leaf count over a taxonomy forest. -/
def unsatLeafCountF (sat : RequirementNode → Bool) : List ReqTree → Nat
  | [] => 0
  | t :: ts => unsatLeafCount sat t + unsatLeafCountF sat ts

end

/-- Whether a leaf requirement is satisfied for the period: either out of
scope, or the Gap Detector reports no Gap for it (spec section 4.4). -/
def leafSatisfied (ledger : List LedgerEntry) (now w : Nat) (p : Period)
    (r : RequirementNode) : Bool :=
  !(applicable p r) || (detectLeaf ledger now w r p).isNone

/-- Modelled from the spec: the purely informational roll-up Gap a
non-leaf node contributes (spec section 4.4): present exactly when some
in-scope leaf descendant is unsatisfied; a leaf contributes none. -/
def nodeRollupGap (sat : RequirementNode → Bool) : ReqTree → List Gap
  | ReqTree.node _ [] => []
  | ReqTree.node r (c :: cs) =>
    if unsatLeafCount sat (ReqTree.node r (c :: cs)) = 0 then []
    else [⟨r.id, GapReason.Unmet, none, true⟩]

mutual

/-- Informational roll-up Gaps of every non-leaf node in a subtree. -/
def rollupGaps (sat : RequirementNode → Bool) : ReqTree → List Gap
  | ReqTree.node r [] => nodeRollupGap sat (ReqTree.node r [])
  | ReqTree.node r (c :: cs) =>
    nodeRollupGap sat (ReqTree.node r (c :: cs)) ++ rollupGaps sat c ++ rollupGapsF sat cs

/-- Informational roll-up Gaps of every non-leaf node in a forest. -/
def rollupGapsF (sat : RequirementNode → Bool) : List ReqTree → List Gap
  | [] => []
  | t :: ts => rollupGaps sat t ++ rollupGapsF sat ts

end

/-- Modelled from the spec: the Gap Detector (spec section 4.4),
detect(taxonomySnapshot, ledgerSnapshot, reportingPeriod): one Gap per
in-scope leaf requirement that is unmet, expiring within the warning
window w, or expired-but-unswept, followed by the informational roll-up
Gaps of the non-leaf nodes. The Gap Detector is not in src/. -/
def detect (taxonomy : List ReqTree) (ledger : List LedgerEntry) (p : Period)
    (now w : Nat) : List Gap :=
  ((leafDescendantsF taxonomy).filter (applicable p)).filterMap
      (fun r => detectLeaf ledger now w r p)
    ++ rollupGapsF (leafSatisfied ledger now w p) taxonomy

/-- Modelled from the spec: Alert severity levels (spec section 3). -/
inductive Severity where
  | Info
  | Warning
  | Critical
  deriving Repr, DecidableEq

/-- Days-left threshold at which an Expiring gap escalates to Critical
(spec section 4.5). -/
def criticalDays : Nat := 7

/-- Modelled from the spec: severity assigned to a Gap on reconciliation
(spec section 4.5): informational roll-ups are Info; Unmet and Expired
are Critical; Expiring is Critical at seven or fewer days left, Warning
otherwise. The Alert Engine is not in src/; the dashboard's
AlertsPanel.tsx getPriorityColor renders the same three-level ranking. -/
def severityOf (g : Gap) : Severity :=
  if g.informational then Severity.Info
  else
    match g.reason, g.daysUntilExpiry with
    | GapReason.Unmet, _ => Severity.Critical
    | GapReason.Expired, _ => Severity.Critical
    | GapReason.Expiring, some d =>
      if d ≤ criticalDays then Severity.Critical else Severity.Warning
    | GapReason.Expiring, none => Severity.Critical

/-- Modelled from the spec: the deduplication key, a deterministic
function of (requirementId, reportingPeriod, reason) (spec section 3,
invariant 4). -/
abbrev DedupeKey := ReqId × Period × GapReason

/-- Dedupe key of a Gap detected in a reporting period. -/
def gapKey (p : Period) (g : Gap) : DedupeKey :=
  (g.requirementId, p, g.reason)

/-- Modelled from the spec: an Alert owned by the Alert Engine (spec
section 3): dedupe key, severity, first/last seen timestamps, and
whether it has been closed (closing is terminal, spec section 4.5). -/
structure Alert where
  dedupeKey : DedupeKey
  severity : Severity
  firstSeenAt : Nat
  lastSeenAt : Nat
  closed : Bool
  deriving Repr, DecidableEq

/-- Whether an alert is in the created-but-not-closed state. -/
def isOpen (a : Alert) : Bool :=
  !a.closed

/-- Dedupe keys of the currently open alerts. -/
def openKeys (st : List Alert) : List DedupeKey :=
  (st.filter isOpen).map (fun a => a.dedupeKey)

/-- Boolean membership test on dedupe keys. -/
def keyElem (k : DedupeKey) (ks : List DedupeKey) : Bool :=
  ks.any (fun x => decide (x = k))

/-- Modelled from the spec: per-alert reconciliation step (spec section
4.5): a closed alert stays closed; an open alert whose key is detected
again is refreshed (lastSeenAt bumped, severity re-evaluated from the
current Gap); an open alert whose key is gone is closed. -/
def refreshOrClose (now : Nat) (p : Period) (gaps : List Gap) (a : Alert) : Alert :=
  if a.closed then a
  else
    match gaps.find? (fun g => decide (gapKey p g = a.dedupeKey)) with
    | some g => { a with lastSeenAt := now, severity := severityOf g }
    | none => { a with closed := true }

/-- A newly created alert for a freshly detected Gap (spec section 4.5). -/
def mkAlert (now : Nat) (p : Period) (g : Gap) : Alert :=
  ⟨gapKey p g, severityOf g, now, now, false⟩

/-- Modelled from the spec: the Alert Engine's reconcile(currentGaps)
(spec section 4.5): existing alerts are refreshed or closed, then a new
alert is created for every current Gap whose key has no open alert. The
Alert Engine is not in src/. -/
def reconcile (now : Nat) (p : Period) (gaps : List Gap) (st : List Alert) :
    List Alert :=
  st.map (refreshOrClose now p gaps)
    ++ (gaps.filter (fun g => !(keyElem (gapKey p g) (openKeys st)))).map
        (mkAlert now p)

/-- Number of open alerts carrying a given dedupe key. -/
def openCount (st : List Alert) (k : DedupeKey) : Nat :=
  st.countP (fun a => isOpen a && decide (a.dedupeKey = k))

/-- Alert invariant (spec section 3, invariant 4, and section 8): no
dedupe key ever has two concurrently open alerts. -/
def OpenDedupInv (st : List Alert) : Prop :=
  ∀ k, openCount st k ≤ 1

/-- One detection/reconciliation cycle: the time it ran, the reporting
period, and the Gap set produced by detect() for that cycle. -/
structure DetectionCycle where
  now : Nat
  period : Period
  gaps : List Gap
  deriving Repr, DecidableEq

/-- Runs one reconciliation cycle against the alert state. -/
def applyCycle (st : List Alert) (c : DetectionCycle) : List Alert :=
  reconcile c.now c.period c.gaps st

/-- Runs a sequence of reconciliation cycles, oldest first. -/
def applyCycles (cycles : List DetectionCycle) (st : List Alert) : List Alert :=
  cycles.foldl applyCycle st

/-- Modelled from the spec: a typed data point produced by the Extraction
Adapter (spec section 3). -/
structure ExtractedDataPoint where
  dataPointId : String
  sourceDocumentId : String
  evidenceType : EvidenceType
  label : String
  confidence : Nat
  deriving Repr, DecidableEq

/-- Modelled from the spec: the Mapper's similarity scoring function
(spec sections 4.2 and 9: any deterministic scoring function), given as
a parameter; scores are in hundredths. -/
abbrev ScoreFn := ExtractedDataPoint → RequirementNode → Nat

/-- Default Mapper acceptance threshold, 0.75 in hundredths (spec
sections 4.2 and 9). -/
def acceptanceThreshold : Nat := 75

/-- Modelled from the spec: the requirements a data point may be accepted
against (spec section 4.2): exact evidence-type membership is necessary,
and the similarity score must reach the acceptance threshold. -/
def acceptedRequirements (score : ScoreFn) (taxonomy : List RequirementNode)
    (dp : ExtractedDataPoint) : List RequirementNode :=
  taxonomy.filter (fun r =>
    decide (dp.evidenceType ∈ r.requiredEvidenceTypes) &&
      decide (acceptanceThreshold ≤ score dp r))

/-- Modelled from the spec: preference between two accepted requirements
(spec section 4.2): higher score wins; ties go to the deeper, more
specific node. -/
def preferredOf (score : ScoreFn) (dp : ExtractedDataPoint)
    (a b : RequirementNode) : RequirementNode :=
  if score dp a < score dp b then b
  else if score dp a = score dp b ∧ a.depth < b.depth then b
  else a

/-- Picks the best accepted requirement for a data point, if any. -/
def chooseBest (score : ScoreFn) (dp : ExtractedDataPoint) :
    List RequirementNode → Option RequirementNode
  | [] => none
  | r :: rs => some (rs.foldl (preferredOf score dp) r)

/-- Modelled from the spec: the Mapper's decision step for one data point
(spec section 4.2): a data point scoring below threshold against every
requirement is logged unmapped and leaves the Ledger untouched; an
accepted data point is committed against its best-matching requirement
with validUntil = acceptedAt + validityPeriod. The state threaded through
is the ledger paired with the unmapped log. -/
def processDataPoint (score : ScoreFn) (taxonomy : List RequirementNode)
    (p : Period) (now : Nat) (st : List LedgerEntry × List String)
    (dp : ExtractedDataPoint) : List LedgerEntry × List String :=
  match chooseBest score dp (acceptedRequirements score taxonomy dp) with
  | none => (st.1, st.2 ++ [dp.dataPointId])
  | some r =>
    (commit st.1 ⟨r.id, dp.dataPointId, p, score dp r, now, now + r.validityPeriod⟩,
      st.2)

/-- Modelled from the spec: a submitted document, identified by source
document id and content hash (spec section 4.1 idempotence key). -/
structure Document where
  sourceDocumentId : String
  contentHash : Nat
  mimeType : String
  deriving Repr, DecidableEq

/-- Modelled from the spec: outcome of one Extraction Adapter call (spec
section 6): data points, a transient failure, or a permanent failure. -/
inductive ExtractOutcome where
  | success (points : List ExtractedDataPoint)
  | transientFailure
  | permanentFailure
  deriving Repr, DecidableEq

/-- Modelled from the spec: terminal status of a pipeline run (spec
section 4.1 contract). -/
inductive RunStatus where
  | Pending
  | ExtractionFailed
  | MappingFailed
  | Committed
  deriving Repr, DecidableEq

/-- Result of a pipeline run: its id and terminal status. -/
structure RunResult where
  runId : Nat
  status : RunStatus
  deriving Repr, DecidableEq

/-- Modelled from the spec: Pipeline Orchestrator state — completed runs
keyed by (sourceDocumentId, contentHash), the Evidence Ledger, the next
run id, and the Mapper's unmapped log. The Orchestrator is not in
src/. -/
structure OrchState where
  runs : List ((String × Nat) × RunResult)
  ledger : List LedgerEntry
  nextRunId : Nat
  unmappedLog : List String
  deriving Repr, DecidableEq

/-- Idempotence key of a document (spec section 4.1). -/
def docKey (d : Document) : String × Nat :=
  (d.sourceDocumentId, d.contentHash)

/-- Looks up a prior run by its idempotence key. -/
def lookupRun (runs : List ((String × Nat) × RunResult)) (k : String × Nat) :
    Option RunResult :=
  (runs.find? (fun kr => decide (kr.1 = k))).map (fun kr => kr.2)

/-- Default bounded retry attempts for transient failures (spec section
4.1). -/
def defaultMaxAttempts : Nat := 3

/-- Modelled from the spec: extraction with bounded retry (spec section
4.1): transient failures are retried up to the attempt budget; permanent
failures and successes short-circuit. -/
def runExtraction (extract : Document → ExtractOutcome) (attempts : Nat)
    (d : Document) : ExtractOutcome :=
  match attempts with
  | 0 => ExtractOutcome.transientFailure
  | n + 1 =>
    match extract d with
    | ExtractOutcome.transientFailure => runExtraction extract n d
    | o => o

/-- Modelled from the spec: a fresh pipeline run for a document (spec
section 4.1): extraction, then mapping and ledger commit of every
extracted data point; extraction failure terminates the run as
ExtractionFailed; the run result is recorded under the document's
idempotence key. -/
def startRun (extract : Document → ExtractOutcome) (score : ScoreFn)
    (taxonomy : List RequirementNode) (p : Period) (now : Nat)
    (s : OrchState) (d : Document) : RunResult × OrchState :=
  match runExtraction extract defaultMaxAttempts d with
  | ExtractOutcome.success pts =>
    let committed := pts.foldl (processDataPoint score taxonomy p now)
      (s.ledger, s.unmappedLog)
    let r : RunResult := ⟨s.nextRunId, RunStatus.Committed⟩
    (r, ⟨(docKey d, r) :: s.runs, committed.1, s.nextRunId + 1, committed.2⟩)
  | ExtractOutcome.transientFailure =>
    let r : RunResult := ⟨s.nextRunId, RunStatus.ExtractionFailed⟩
    (r, ⟨(docKey d, r) :: s.runs, s.ledger, s.nextRunId + 1, s.unmappedLog⟩)
  | ExtractOutcome.permanentFailure =>
    let r : RunResult := ⟨s.nextRunId, RunStatus.ExtractionFailed⟩
    (r, ⟨(docKey d, r) :: s.runs, s.ledger, s.nextRunId + 1, s.unmappedLog⟩)

/-- Modelled from the spec: the Orchestrator's submit(document) (spec
section 4.1): resubmitting an already-committed document is a no-op
returning the prior run's result; otherwise a fresh run starts. The
Orchestrator is not in src/. -/
def submit (extract : Document → ExtractOutcome) (score : ScoreFn)
    (taxonomy : List RequirementNode) (p : Period) (now : Nat)
    (s : OrchState) (d : Document) : RunResult × OrchState :=
  match lookupRun s.runs (docKey d) with
  | some r =>
    if r.status = RunStatus.Committed then (r, s)
    else startRun extract score taxonomy p now s d
  | none => startRun extract score taxonomy p now s d

/-- Metrics rendered by the Dashboard component
(src/frontend/src/components/Dashboard.tsx, lines 25 to 28 and the four
metric cards). -/
structure DashboardMetrics where
  complianceScore : Nat
  documentsProcessed : Nat
  alertsCount : Nat
  gapsIdentified : Nat
  deriving Repr, DecidableEq

/-- Ambient application state a dashboard could observe. The Dashboard
component takes no props and reads none of it. -/
structure DashboardEnv where
  ledger : List LedgerEntry
  gaps : List Gap
  alerts : List Alert

/-- Embedding of the Dashboard component
(src/frontend/src/components/Dashboard.tsx): the four rendered metrics
are the local constants complianceScore = 87, documentsProcessed = 156,
alertsCount = 3, gapsIdentified = 12, regardless of the ambient
state. -/
def dashboardMetrics (_env : DashboardEnv) : DashboardMetrics :=
  ⟨87, 156, 3, 12⟩

/-- One entry of the DataUpload component's uploadedFiles state (the
DataUpload component source, bundled in src/setup.sh). -/
structure UploadedFile where
  id : Nat
  name : String
  status : String
  docType : String
  size : String
  deriving Repr, DecidableEq

/-- Initial uploadedFiles state of the DataUpload component. -/
def initialUploadedFiles : List UploadedFile :=
  [⟨1, "Sustainability_Report_2024.pdf", "processed", "Sustainability Report", "2.4 MB"⟩,
   ⟨2, "ESG_Metrics_Q3.pdf", "processing", "ESG Metrics", "1.8 MB"⟩,
   ⟨3, "Carbon_Footprint_Data.xlsx", "error", "Carbon Data", "856 KB"⟩]

/-- Component state of DataUpload: the uploadedFiles list rendered as the
Recent Uploads section. -/
structure DataUploadState where
  uploadedFiles : List UploadedFile
  deriving Repr, DecidableEq

/-- A file-selection change event: event.target.files, null when no file
list is present. -/
structure FileSelectionEvent where
  files : Option (List String)
  deriving Repr, DecidableEq

/-- Embedding of the DataUpload component's handleFileUpload handler: if
files are present it only writes a console log; it never calls
setUploadedFiles, so the component state is returned unchanged. Returns
the state paired with the console output of the call. -/
def handleFileUpload (event : FileSelectionEvent) (s : DataUploadState) :
    DataUploadState × List String :=
  match event.files with
  | some fs => (s, "Files uploaded:" :: fs)
  | none => (s, [])

/-- The list the Recent Uploads section renders: exactly the component's
uploadedFiles state. -/
def recentUploads (s : DataUploadState) : List UploadedFile :=
  s.uploadedFiles

/-- Sample requirement from the worked scenario of spec section 8:
E2-4 requires evidence type PollutantDischarge with a 365-day validity
window. -/
def sampleE24 : RequirementNode :=
  ⟨"E2-4", "ESRS E2-4", "Pollutant discharge", ["PollutantDischarge"], 365,
    ["2024"], 2⟩

/-- Sample Active ledger entry for E2-4 committed on day 0 with match
score 0.82, valid until day 365 (spec section 8 scenario). -/
def sampleEntry : LedgerEntry :=
  ⟨"E2-4", "dp-1", "2024", 82, 0, 365, EntryStatus.Active⟩

end ESG

namespace ESG

mutual

/-- The bottom-up unsatisfied-leaf count of a subtree vanishes exactly
when every leaf descendant satisfies the predicate. -/
theorem unsatLeafCount_eq_zero (sat : RequirementNode → Bool) (t : ReqTree) :
    unsatLeafCount sat t = 0 ↔ ∀ r ∈ leafDescendants t, sat r = true := by
  match t with
  | ReqTree.node r [] =>
    cases h : sat r <;> simp [unsatLeafCount, leafDescendants, h]
  | ReqTree.node r (c :: cs) =>
    simp only [unsatLeafCount, leafDescendants, Nat.add_eq_zero,
      unsatLeafCount_eq_zero sat c, unsatLeafCountF_eq_zero sat cs,
      List.mem_append]
    constructor
    · rintro ⟨h1, h2⟩ x hx
      exact hx.elim (h1 x) (h2 x)
    · exact fun h => ⟨fun x hx => h x (Or.inl hx), fun x hx => h x (Or.inr hx)⟩

/-- Forest version of unsatLeafCount_eq_zero. -/
theorem unsatLeafCountF_eq_zero (sat : RequirementNode → Bool) (ts : List ReqTree) :
    unsatLeafCountF sat ts = 0 ↔ ∀ r ∈ leafDescendantsF ts, sat r = true := by
  match ts with
  | [] => simp [unsatLeafCountF, leafDescendantsF]
  | t :: ts =>
    simp only [unsatLeafCountF, leafDescendantsF, Nat.add_eq_zero,
      unsatLeafCount_eq_zero sat t, unsatLeafCountF_eq_zero sat ts,
      List.mem_append]
    constructor
    · rintro ⟨h1, h2⟩ x hx
      exact hx.elim (h1 x) (h2 x)
    · exact fun h => ⟨fun x hx => h x (Or.inl hx), fun x hx => h x (Or.inr hx)⟩

end

/-- A leaf is satisfied exactly when being in scope implies the Gap
Detector reports nothing for it. -/
theorem leafSatisfied_iff (ledger : List LedgerEntry) (now w : Nat) (p : Period)
    (r : RequirementNode) :
    leafSatisfied ledger now w p r = true ↔
      (applicable p r = true → detectLeaf ledger now w r p = none) := by
  cases h : applicable p r <;>
    simp [leafSatisfied, h, Option.isNone_iff_eq_none]

/-- Claim C6: for every reporting period, a non-leaf requirement node has
zero informational roll-up Gap if and only if all of its in-scope leaf
descendants are satisfied (the Gap Detector reports no Gap for them),
where the roll-up is computed by bottom-up aggregation over the
taxonomy tree. -/
theorem rollup_aggregation_iff (ledger : List LedgerEntry) (now w : Nat)
    (p : Period) (r : RequirementNode) (c : ReqTree) (cs : List ReqTree) :
    nodeRollupGap (leafSatisfied ledger now w p) (ReqTree.node r (c :: cs)) = [] ↔
      ∀ l ∈ leafDescendants (ReqTree.node r (c :: cs)),
        applicable p l = true → detectLeaf ledger now w l p = none := by
  have hz := unsatLeafCount_eq_zero (leafSatisfied ledger now w p)
    (ReqTree.node r (c :: cs))
  constructor
  · intro h0 l hl hap
    rw [nodeRollupGap] at h0
    by_cases hc : unsatLeafCount (leafSatisfied ledger now w p)
        (ReqTree.node r (c :: cs)) = 0
    · exact (leafSatisfied_iff ledger now w p l).mp (hz.mp hc l hl) hap
    · simp [hc] at h0
  · intro h
    rw [nodeRollupGap]
    have hc : unsatLeafCount (leafSatisfied ledger now w p)
        (ReqTree.node r (c :: cs)) = 0 :=
      hz.mpr (fun l hl => (leafSatisfied_iff ledger now w p l).mpr (h l hl))
    simp [hc]

/-- Claim C1: the Gap Detector is a deterministic, pure function of its
taxonomy snapshot, ledger snapshot and reporting period: identical
inputs always produce an identical Gap set. -/
theorem detect_deterministic (t₁ t₂ : List ReqTree) (l₁ l₂ : List LedgerEntry)
    (p₁ p₂ : Period) (now w : Nat)
    (ht : t₁ = t₂) (hl : l₁ = l₂) (hp : p₁ = p₂) :
    detect t₁ l₁ p₁ now w = detect t₂ l₂ p₂ now w := by
  subst ht; subst hl; subst hp; rfl

/-- Witness for detect_deterministic: two detect() runs on the same
concrete snapshot pair (the spec section 8 scenario on day 340) agree. -/
theorem detect_deterministic_witness :
    ([ReqTree.node sampleE24 []] : List ReqTree) = [ReqTree.node sampleE24 []] ∧
    ([sampleEntry] : List LedgerEntry) = [sampleEntry] ∧
    ("2024" : Period) = "2024" ∧
    detect [ReqTree.node sampleE24 []] [sampleEntry] "2024" 340 30
      = detect [ReqTree.node sampleE24 []] [sampleEntry] "2024" 340 30 :=
  ⟨rfl, rfl, rfl,
    detect_deterministic [ReqTree.node sampleE24 []] [ReqTree.node sampleE24 []]
      [sampleEntry] [sampleEntry] "2024" "2024" 340 30 rfl rfl rfl⟩

/-- Claim C3: the Gap Detector classifies a leaf requirement into exactly
one of three outcomes: no Active ledger entry gives a Gap with reason
Unmet; an Active entry whose validUntil has passed gives reason Expired;
an Active entry with validUntil within the warning window of now gives
reason Expiring with daysUntilExpiry computed as validUntil minus now. -/
theorem detectLeaf_classification (ledger : List LedgerEntry) (now w : Nat)
    (r : RequirementNode) (p : Period) :
    (activeEntryFor ledger r.id p = none →
      detectLeaf ledger now w r p = some ⟨r.id, GapReason.Unmet, none, false⟩) ∧
    (∀ e, activeEntryFor ledger r.id p = some e → e.validUntil < now →
      detectLeaf ledger now w r p = some ⟨r.id, GapReason.Expired, none, false⟩) ∧
    (∀ e, activeEntryFor ledger r.id p = some e → now ≤ e.validUntil →
      e.validUntil - now ≤ w →
      detectLeaf ledger now w r p
        = some ⟨r.id, GapReason.Expiring, some (e.validUntil - now), false⟩) := by
  refine ⟨fun h => ?_, fun e he hlt => ?_, fun e he hge hwin => ?_⟩
  · simp [detectLeaf, h]
  · simp [detectLeaf, he, hlt]
  · have hnlt : ¬ e.validUntil < now := by omega
    simp [detectLeaf, he, hnlt, hwin]

/-- Witness for detectLeaf_classification: the spec section 8 scenario —
entry valid until day 365 checked on day 340 with the default 30-day
window yields an Expiring Gap with daysUntilExpiry = 25. -/
theorem detectLeaf_classification_witness :
    activeEntryFor [sampleEntry] sampleE24.id "2024" = some sampleEntry ∧
    340 ≤ sampleEntry.validUntil ∧
    sampleEntry.validUntil - 340 ≤ defaultWarningWindow ∧
    detectLeaf [sampleEntry] 340 defaultWarningWindow sampleE24 "2024"
      = some ⟨"E2-4", GapReason.Expiring, some 25, false⟩ :=
  ⟨by decide, by decide, by decide,
    (detectLeaf_classification [sampleEntry] 340 defaultWarningWindow sampleE24
      "2024").2.2 sampleEntry (by decide) (by decide) (by decide)⟩

/-- Claim C9: the Dashboard component's rendered metrics are constants
independent of any ledger, gap or alert state: every render shows
compliance score 87, documents processed 156, active alerts 3 and gaps
identified 12. -/
theorem dashboard_constant_metrics (env env' : DashboardEnv) :
    dashboardMetrics env = ⟨87, 156, 3, 12⟩ ∧
    dashboardMetrics env = dashboardMetrics env' :=
  ⟨rfl, rfl⟩

/-- Claim C10: the DataUpload component's handleFileUpload handler leaves
the uploadedFiles state unchanged for every file-selection event (it only
logs the selected files), so the rendered Recent Uploads list is never
modified by uploading a document through the UI. -/
theorem handleFileUpload_frame (event : FileSelectionEvent) (s : DataUploadState) :
    (handleFileUpload event s).1 = s ∧
    recentUploads (handleFileUpload event s).1 = recentUploads s := by
  rcases event with ⟨files⟩
  cases files <;> simp [handleFileUpload, recentUploads]

end ESG

namespace ESG

/-- Claim C4: for every Gap processed by the Alert Engine's reconcile(),
the severity of the resulting open Alert is determined by the Gap's
reason and time left: informational roll-ups map to Info, Unmet and
Expired map to Critical, Expiring maps to Critical at seven or fewer
days until expiry and to Warning above seven days. -/
theorem reconcile_severity (now : Nat) (p : Period) (gaps : List Gap)
    (st : List Alert) (a : Alert) (g : Gap)
    (hnd : (gaps.map (gapKey p)).Nodup)
    (ha : a ∈ reconcile now p gaps st) (hopen : a.closed = false)
    (hg : g ∈ gaps) (hk : a.dedupeKey = gapKey p g) :
    a.severity = severityOf g ∧
    (g.informational = true → a.severity = Severity.Info) ∧
    (g.informational = false → g.reason = GapReason.Unmet →
      a.severity = Severity.Critical) ∧
    (g.informational = false → g.reason = GapReason.Expired →
      a.severity = Severity.Critical) ∧
    (∀ d, g.informational = false → g.reason = GapReason.Expiring →
      g.daysUntilExpiry = some d →
      (d ≤ 7 → a.severity = Severity.Critical) ∧
      (7 < d → a.severity = Severity.Warning)) := by
  have hsev : a.severity = severityOf g := by
    rcases List.mem_append.mp ha with hmem | hmem
    · rcases List.mem_map.mp hmem with ⟨a0, ha0, rfl⟩
      by_cases hc : a0.closed
      · simp [refreshOrClose, hc] at hopen
      · rcases hf : gaps.find? (fun g0 => decide (gapKey p g0 = a0.dedupeKey))
          with _ | g1
        · simp [refreshOrClose, hc, hf] at hopen
        · have hkey : gapKey p g1 = a0.dedupeKey := by
            have := List.find?_some hf
            simpa using this
          have hg1 : g1 ∈ gaps := List.mem_of_find?_eq_some hf
          have hk0 : a0.dedupeKey = gapKey p g := by
            simpa [refreshOrClose, hc, hf] using hk
          have : g1 = g :=
            List.inj_on_of_nodup_map hnd hg1 hg (hkey.trans hk0)
          subst this
          simp [refreshOrClose, hc, hf]
    · rcases List.mem_map.mp hmem with ⟨g1, hg1, rfl⟩
      have hg1m : g1 ∈ gaps := List.mem_of_mem_filter hg1
      have hk1 : gapKey p g1 = gapKey p g := by simpa [mkAlert] using hk
      have : g1 = g := List.inj_on_of_nodup_map hnd hg1m hg hk1
      subst this
      rfl
  refine ⟨hsev, fun hi => ?_, fun hi hr => ?_, fun hi hr => ?_,
    fun d hi hr hd => ⟨fun hle => ?_, fun hgt => ?_⟩⟩
  · rw [hsev, severityOf]; simp [hi]
  · rw [hsev, severityOf]; simp [hi, hr]
  · rw [hsev, severityOf]; simp [hi, hr]
  · rw [hsev, severityOf]; simp [hi, hr, hd, criticalDays, hle]
  · have hnle : ¬ d ≤ criticalDays := by rw [criticalDays]; omega
    rw [hsev, severityOf]; simp [hi, hr, hd, hnle]

/-- Witness for reconcile_severity: reconciling an Expiring Gap with five
days left (the spec day-366 escalation scenario) creates an Alert whose
severity is Critical. -/
theorem reconcile_severity_witness :
    (([⟨"E2-4", GapReason.Expiring, some 5, false⟩] : List Gap).map
        (gapKey "2024")).Nodup ∧
    (⟨("E2-4", "2024", GapReason.Expiring), Severity.Critical, 366, 366,
        false⟩ : Alert)
      ∈ reconcile 366 "2024" [⟨"E2-4", GapReason.Expiring, some 5, false⟩] [] ∧
    (⟨("E2-4", "2024", GapReason.Expiring), Severity.Critical, 366, 366,
        false⟩ : Alert).severity
      = severityOf ⟨"E2-4", GapReason.Expiring, some 5, false⟩ :=
  ⟨by decide, by decide,
    (reconcile_severity 366 "2024" [⟨"E2-4", GapReason.Expiring, some 5, false⟩]
      [] ⟨("E2-4", "2024", GapReason.Expiring), Severity.Critical, 366, 366, false⟩
      ⟨"E2-4", GapReason.Expiring, some 5, false⟩
      (by decide) (by decide) rfl (by decide) rfl).1⟩

/-- Claim C8: a data point whose match score is below the acceptance
threshold against every requirement is logged unmapped and leaves the
Evidence Ledger entirely unchanged, so a subsequent detection still
reports Unmet for any requirement with no Active entry. -/
theorem unmapped_below_threshold (score : ScoreFn)
    (taxonomy : List RequirementNode) (p : Period) (now : Nat)
    (ledger : List LedgerEntry) (log : List String) (dp : ExtractedDataPoint)
    (h : ∀ r ∈ taxonomy, score dp r < acceptanceThreshold) :
    processDataPoint score taxonomy p now (ledger, log) dp
      = (ledger, log ++ [dp.dataPointId]) ∧
    (∀ (r0 : RequirementNode) (q : Period) (n w : Nat),
      detectLeaf (processDataPoint score taxonomy p now (ledger, log) dp).1
          n w r0 q
        = detectLeaf ledger n w r0 q) ∧
    (∀ (r0 : RequirementNode) (q : Period) (n w : Nat),
      activeEntryFor ledger r0.id q = none →
      detectLeaf (processDataPoint score taxonomy p now (ledger, log) dp).1
          n w r0 q
        = some ⟨r0.id, GapReason.Unmet, none, false⟩) := by
  have hacc : acceptedRequirements score taxonomy dp = [] := by
    rw [acceptedRequirements, List.filter_eq_nil_iff]
    intro r hr
    have := h r hr
    simp [Nat.not_le_of_lt this]
  have hmain : processDataPoint score taxonomy p now (ledger, log) dp
      = (ledger, log ++ [dp.dataPointId]) := by
    rw [processDataPoint, hacc]
    rfl
  refine ⟨hmain, fun r0 q n w => by rw [hmain], fun r0 q n w hnone => ?_⟩
  rw [hmain]
  simp [detectLeaf, hnone]

/-- Witness for unmapped_below_threshold: the spec section 8 scenario — a
data point scoring 0.60 against E2-4 (below the 0.75 threshold) is
logged unmapped, the ledger stays empty, and detection still reports
Unmet for E2-4. -/
theorem unmapped_below_threshold_witness :
    (∀ r ∈ [sampleE24],
      (fun (_ : ExtractedDataPoint) (_ : RequirementNode) => 60 : ScoreFn)
        ⟨"dp-low", "doc-1", "PollutantDischarge", "discharge", 60⟩ r
        < acceptanceThreshold) ∧
    detectLeaf (processDataPoint
        (fun (_ : ExtractedDataPoint) (_ : RequirementNode) => 60) [sampleE24]
        "2024" 0 ([], [])
        ⟨"dp-low", "doc-1", "PollutantDischarge", "discharge", 60⟩).1
        0 defaultWarningWindow sampleE24 "2024"
      = some ⟨"E2-4", GapReason.Unmet, none, false⟩ :=
  ⟨by decide,
    (unmapped_below_threshold
      (fun (_ : ExtractedDataPoint) (_ : RequirementNode) => 60) [sampleE24]
      "2024" 0 [] []
      ⟨"dp-low", "doc-1", "PollutantDischarge", "discharge", 60⟩
      (by decide)).2.2 sampleE24 "2024" 0 defaultWarningWindow rfl⟩

/-- A run recorded at the front of the run table is found by its key. -/
theorem lookupRun_cons_self (k : String × Nat) (r : RunResult)
    (runs : List ((String × Nat) × RunResult)) :
    lookupRun ((k, r) :: runs) k = some r := by
  simp [lookupRun]

/-- Resubmitting right after a fresh run that committed is a no-op
returning that run's result. -/
theorem submit_after_startRun (extract : Document → ExtractOutcome)
    (score : ScoreFn) (taxonomy : List RequirementNode) (p : Period)
    (now : Nat) (s : OrchState) (d : Document)
    (h : (startRun extract score taxonomy p now s d).1.status
      = RunStatus.Committed) :
    submit extract score taxonomy p now
        (startRun extract score taxonomy p now s d).2 d
      = startRun extract score taxonomy p now s d := by
  rcases he : runExtraction extract defaultMaxAttempts d with pts | _ | _
  · simp only [startRun, he]
    simp [submit, lookupRun_cons_self]
  · rw [startRun, he] at h
    simp at h
  · rw [startRun, he] at h
    simp at h

/-- Claim C2: submit is idempotent keyed by (sourceDocumentId,
contentHash): once a submission has committed, submitting the same
document again produces no additional effect on the Orchestrator state
or the Evidence Ledger and returns the prior run's result. -/
theorem submit_idempotent (extract : Document → ExtractOutcome)
    (score : ScoreFn) (taxonomy : List RequirementNode) (p : Period)
    (now : Nat) (s : OrchState) (d : Document)
    (h : (submit extract score taxonomy p now s d).1.status
      = RunStatus.Committed) :
    submit extract score taxonomy p now
        (submit extract score taxonomy p now s d).2 d
      = submit extract score taxonomy p now s d := by
  rcases hl : lookupRun s.runs (docKey d) with _ | r
  · have heq : submit extract score taxonomy p now s d
        = startRun extract score taxonomy p now s d := by
      simp [submit, hl]
    rw [heq] at h ⊢
    exact submit_after_startRun extract score taxonomy p now s d h
  · by_cases hr : r.status = RunStatus.Committed
    · have heq : submit extract score taxonomy p now s d = (r, s) := by
        simp [submit, hl, hr]
      rw [heq]
      simp [submit, hl, hr]
    · have heq : submit extract score taxonomy p now s d
          = startRun extract score taxonomy p now s d := by
        simp [submit, hl, hr]
      rw [heq] at h ⊢
      exact submit_after_startRun extract score taxonomy p now s d h

/-- Witness for submit_idempotent: a concrete document committed against
an empty state; the second submission returns the first run's result and
leaves the state untouched. -/
theorem submit_idempotent_witness :
    (submit (fun _ => ExtractOutcome.success [])
        (fun _ _ => 0) [] "2024" 0 ⟨[], [], 0, []⟩
        ⟨"doc-1", 7, "application/pdf"⟩).1.status = RunStatus.Committed ∧
    submit (fun _ => ExtractOutcome.success []) (fun _ _ => 0) [] "2024" 0
        (submit (fun _ => ExtractOutcome.success []) (fun _ _ => 0) [] "2024" 0
          ⟨[], [], 0, []⟩ ⟨"doc-1", 7, "application/pdf"⟩).2
        ⟨"doc-1", 7, "application/pdf"⟩
      = submit (fun _ => ExtractOutcome.success []) (fun _ _ => 0) [] "2024" 0
          ⟨[], [], 0, []⟩ ⟨"doc-1", 7, "application/pdf"⟩ :=
  ⟨by decide,
    submit_idempotent (fun _ => ExtractOutcome.success []) (fun _ _ => 0) []
      "2024" 0 ⟨[], [], 0, []⟩ ⟨"doc-1", 7, "application/pdf"⟩ (by decide)⟩

end ESG

namespace ESG

/-- Membership characterization of the Boolean Active-for-key test. -/
theorem activeKeyP_iff (rid : ReqId) (p : Period) (e : LedgerEntry) :
    activeKeyP rid p e = true ↔
      e.requirementId = rid ∧ e.reportingPeriod = p ∧
        e.status = EntryStatus.Active := by
  simp [activeKeyP, sameKeyAs, and_assoc]

/-- A predicate holding at most once on a list holds for equal elements
only. -/
theorem countP_le_one_eq {α : Type _} (p : α → Bool) (l : List α)
    (h : l.countP p ≤ 1) {a b : α} (ha : a ∈ l) (hb : b ∈ l)
    (hpa : p a = true) (hpb : p b = true) : a = b := by
  have hfa : a ∈ l.filter p := List.mem_filter.mpr ⟨ha, hpa⟩
  have hfb : b ∈ l.filter p := List.mem_filter.mpr ⟨hb, hpb⟩
  have hlen : (l.filter p).length ≤ 1 := by
    rw [← List.countP_eq_length_filter]
    exact h
  rcases hfl : l.filter p with _ | ⟨x, xs⟩
  · rw [hfl] at hfa
    exact absurd hfa (List.not_mem_nil a)
  · rw [hfl] at hfa hfb hlen
    cases xs with
    | nil =>
      have h1 : a = x := by simpa using hfa
      have h2 : b = x := by simpa using hfb
      rw [h1, h2]
    | cons y ys => simp at hlen
 
/-- Superseding a key clears every Active entry for that key. -/
theorem activeCount_supersedeKey_self (rid : ReqId) (p : Period)
    (ledger : List LedgerEntry) :
    activeCount (supersedeKey rid p ledger) rid p = 0 := by
  rw [activeCount, supersedeKey, List.countP_map]
  rw [List.countP_eq_zero]
  intro e _
  simp only [Function.comp_apply]
  by_cases hk : activeKeyP rid p e = true
  · rw [if_pos hk]
    simp [activeKeyP_iff]
  · rw [if_neg hk]
    exact hk

/-- Superseding a key leaves the Active count of every other key
unchanged. -/
theorem activeCount_supersedeKey_other (rid : ReqId) (p : Period)
    (rid' : ReqId) (p' : Period) (ledger : List LedgerEntry)
    (hne : ¬(rid' = rid ∧ p' = p)) :
    activeCount (supersedeKey rid p ledger) rid' p'
      = activeCount ledger rid' p' := by
  rw [activeCount, supersedeKey, List.countP_map, activeCount]
  apply List.countP_congr
  intro e _
  by_cases hk : activeKeyP rid p e = true
  · obtain ⟨h1, h2, _⟩ := (activeKeyP_iff rid p e).mp hk
    simp only [Function.comp, hk, if_pos hk]
    constructor
    · intro hc
      obtain ⟨c1, c2, c3⟩ := (activeKeyP_iff rid' p' _).mp hc
      simp at c3
    · intro hc
      obtain ⟨c1, c2, _⟩ := (activeKeyP_iff rid' p' e).mp hc
      exact absurd ⟨c1 ▸ h1, c2 ▸ h2⟩ hne
  · simp [Function.comp, hk]

/-- The commit operation preserves the single-Active-per-key invariant. -/
theorem atMostOneActive_commit (ledger : List LedgerEntry) (c : CommitReq)
    (h : AtMostOneActive ledger) : AtMostOneActive (commit ledger c) := by
  intro rid p
  rw [commit]
  by_cases hb : beatsExisting ledger c = true
  · rw [if_pos hb]
    have hz : activeKeyP rid p (entryOf c EntryStatus.Superseded) = false := by
      simp [activeKeyP, sameKeyAs, entryOf]
    simpa [activeCount, List.countP_append, List.countP_cons, hz] using h rid p
  · rw [if_neg hb]
    rw [activeCount, List.countP_append]
    by_cases hk : rid = c.requirementId ∧ p = c.reportingPeriod
    · obtain ⟨h1, h2⟩ := hk
      rw [h1, h2]
      have hself := activeCount_supersedeKey_self c.requirementId
        c.reportingPeriod ledger
      rw [activeCount] at hself
      have hone : List.countP (activeKeyP c.requirementId c.reportingPeriod)
          [entryOf c EntryStatus.Active] = 1 := by
        simp [activeKeyP, sameKeyAs, entryOf]
      omega
    · have hother := activeCount_supersedeKey_other c.requirementId
        c.reportingPeriod rid p ledger hk
      simp only [activeCount] at hother
      have hznew : activeKeyP rid p (entryOf c EntryStatus.Active) = false := by
        rw [Bool.eq_false_iff]
        intro hc
        obtain ⟨c1, c2, _⟩ := (activeKeyP_iff rid p _).mp hc
        simp [entryOf] at c1 c2
        exact hk ⟨c1.symm, c2.symm⟩
      have hN : List.countP (activeKeyP rid p) [entryOf c EntryStatus.Active]
          = 0 := by
        simp [hznew]
      have := h rid p
      rw [activeCount] at this
      omega

/-- The expiry sweep preserves the single-Active-per-key invariant. -/
theorem atMostOneActive_expireSweep (now : Nat) (ledger : List LedgerEntry)
    (h : AtMostOneActive ledger) : AtMostOneActive (expireSweep now ledger) := by
  intro rid p
  rw [activeCount, expireSweep, List.countP_map]
  refine le_trans (List.countP_mono_left ?_) (h rid p)
  intro e _ hpe
  by_cases hcond : (decide (e.status = EntryStatus.Active) &&
      decide (e.validUntil < now)) = true
  · simp [Function.comp, hcond, activeKeyP, sameKeyAs] at hpe
  · simpa [Function.comp, hcond] using hpe

end ESG

namespace ESG

/-- Existence form of the beatsExisting test. -/
theorem beatsExisting_iff (ledger : List LedgerEntry) (c : CommitReq) :
    beatsExisting ledger c = true ↔
      ∃ e ∈ ledger, activeKeyP c.requirementId c.reportingPeriod e = true ∧
        c.confidence ≤ e.confidence := by
  simp [beatsExisting, List.any_eq_true, Bool.and_eq_true]

/-- Shape of a member of a superseded ledger: it descends from a member
of the original ledger with the same key and confidence, either
untouched or with its status flipped to Superseded. -/
theorem mem_supersedeKey (rid : ReqId) (p : Period) (ledger : List LedgerEntry)
    (e : LedgerEntry) (he : e ∈ supersedeKey rid p ledger) :
    ∃ e1 ∈ ledger, e.requirementId = e1.requirementId ∧
      e.reportingPeriod = e1.reportingPeriod ∧
      e.confidence = e1.confidence ∧
      ((activeKeyP rid p e1 = true ∧
          e = { e1 with status := EntryStatus.Superseded }) ∨
        (activeKeyP rid p e1 = false ∧ e = e1)) := by
  rw [supersedeKey] at he
  obtain ⟨e1, he1, hfe⟩ := List.mem_map.mp he
  by_cases hk : activeKeyP rid p e1 = true
  · rw [if_pos hk] at hfe
    exact ⟨e1, he1, by rw [← hfe], by rw [← hfe], by rw [← hfe],
      Or.inl ⟨hk, hfe.symm⟩⟩
  · rw [if_neg hk] at hfe
    exact ⟨e1, he1, by rw [← hfe], by rw [← hfe], by rw [← hfe],
      Or.inr ⟨by simpa using hk, hfe.symm⟩⟩

/-- An entry not Active for the superseded key passes through the
supersede map unchanged. -/
theorem supersedeKey_mem_of_mem (rid : ReqId) (p : Period)
    {ledger : List LedgerEntry} {e1 : LedgerEntry} (he1 : e1 ∈ ledger)
    (hk : activeKeyP rid p e1 = false) : e1 ∈ supersedeKey rid p ledger := by
  rw [supersedeKey]
  refine List.mem_map.mpr ⟨e1, he1, ?_⟩
  rw [if_neg (by simp [hk])]

/-- The commit operation keeps every Active entry maximal in confidence
for its key. -/
theorem activeIsMax_commit (ledger : List LedgerEntry) (c : CommitReq)
    (h1 : AtMostOneActive ledger) (h2 : ActiveIsMax ledger)
    (h3 : KeyHasActive ledger) : ActiveIsMax (commit ledger c) := by
  rw [commit]
  by_cases hb : beatsExisting ledger c = true
  · rw [if_pos hb]
    obtain ⟨e0, he0mem, he0key, he0conf⟩ := (beatsExisting_iff ledger c).mp hb
    intro e hemem hestat e' he'mem hrid' hper'
    rcases List.mem_append.mp hemem with he | he
    · rcases List.mem_append.mp he'mem with he' | he'
      · exact h2 e he hestat e' he' hrid' hper'
      · have he'eq : e' = entryOf c EntryStatus.Superseded := by simpa using he'
        have hekey : activeKeyP c.requirementId c.reportingPeriod e = true := by
          rw [activeKeyP_iff]
          refine ⟨?_, ?_, hestat⟩
          · rw [← hrid', he'eq]
            rfl
          · rw [← hper', he'eq]
            rfl
        have hee0 : e = e0 := countP_le_one_eq _ _
          (h1 c.requirementId c.reportingPeriod) he he0mem hekey he0key
        rw [he'eq, hee0]
        exact he0conf
    · have heeq : e = entryOf c EntryStatus.Superseded := by simpa using he
      rw [heeq] at hestat
      simp [entryOf] at hestat
  · rw [if_neg hb]
    have hlt : ∀ e ∈ ledger,
        activeKeyP c.requirementId c.reportingPeriod e = true →
        e.confidence < c.confidence := by
      intro e he hkk
      by_contra hge
      apply hb
      rw [beatsExisting_iff]
      exact ⟨e, he, hkk, by omega⟩
    intro e hemem hestat e' he'mem hrid' hper'
    rcases List.mem_append.mp hemem with he | he
    · obtain ⟨e1, he1, hr1, hp1, hc1, hcase⟩ := mem_supersedeKey _ _ _ _ he
      rcases hcase with ⟨hk1, heq1⟩ | ⟨hk1, heq1⟩
      · rw [heq1] at hestat
        simp at hestat
      · have heL : e ∈ ledger := heq1 ▸ he1
        rcases List.mem_append.mp he'mem with he' | he'
        · obtain ⟨e2, he2, hr2, hp2, hc2, _⟩ := mem_supersedeKey _ _ _ _ he'
          rw [hc2]
          refine h2 e heL hestat e2 he2 ?_ ?_
          · rw [← hr2]
            exact hrid'
          · rw [← hp2]
            exact hper'
        · have he'eq : e' = entryOf c EntryStatus.Active := by simpa using he'
          exfalso
          have hT : activeKeyP c.requirementId c.reportingPeriod e1 = true := by
            rw [activeKeyP_iff]
            have t1 : e.requirementId = c.requirementId := by
              rw [← hrid', he'eq]
              rfl
            have t2 : e.reportingPeriod = c.reportingPeriod := by
              rw [← hper', he'eq]
              rfl
            refine ⟨?_, ?_, ?_⟩
            · rw [← heq1]
              exact t1
            · rw [← heq1]
              exact t2
            · rw [← heq1]
              exact hestat
          rw [hT] at hk1
          cases hk1
    · have heeq : e = entryOf c EntryStatus.Active := by simpa using he
      rcases List.mem_append.mp he'mem with he' | he'
      · obtain ⟨e2, he2, hr2, hp2, hc2, _⟩ := mem_supersedeKey _ _ _ _ he'
        have hrid2 : e2.requirementId = c.requirementId := by
          rw [← hr2, hrid', heeq]
          rfl
        have hper2 : e2.reportingPeriod = c.reportingPeriod := by
          rw [← hp2, hper', heeq]
          rfl
        obtain ⟨a, haMem, haAct, haRid, haPer⟩ := h3 e2 he2
        have haKey : activeKeyP c.requirementId c.reportingPeriod a = true := by
          rw [activeKeyP_iff]
          exact ⟨by rw [haRid, hrid2], by rw [haPer, hper2], haAct⟩
        have hbound := hlt a haMem haKey
        have hmax := h2 a haMem haAct e2 he2 haRid.symm haPer.symm
        rw [hc2, heeq]
        show e2.confidence ≤ c.confidence
        omega
      · have he'eq : e' = entryOf c EntryStatus.Active := by simpa using he'
        rw [he'eq, heeq]

/-- The commit operation keeps an Active entry available for every
recorded key. -/
theorem keyHasActive_commit (ledger : List LedgerEntry) (c : CommitReq)
    (h3 : KeyHasActive ledger) : KeyHasActive (commit ledger c) := by
  rw [commit]
  by_cases hb : beatsExisting ledger c = true
  · rw [if_pos hb]
    obtain ⟨e0, he0mem, he0key, _⟩ := (beatsExisting_iff ledger c).mp hb
    obtain ⟨k1, k2, k3⟩ := (activeKeyP_iff _ _ e0).mp he0key
    intro e hemem
    rcases List.mem_append.mp hemem with he | he
    · obtain ⟨a, haMem, haProp⟩ := h3 e he
      exact ⟨a, List.mem_append_left _ haMem, haProp⟩
    · have heeq : e = entryOf c EntryStatus.Superseded := by simpa using he
      refine ⟨e0, List.mem_append_left _ he0mem, k3, ?_, ?_⟩
      · rw [heeq]
        exact k1
      · rw [heeq]
        exact k2
  · rw [if_neg hb]
    intro e hemem
    rcases List.mem_append.mp hemem with he | he
    · obtain ⟨e1, he1, hr1, hp1, _, _⟩ := mem_supersedeKey _ _ _ _ he
      by_cases hck : e1.requirementId = c.requirementId ∧
          e1.reportingPeriod = c.reportingPeriod
      · refine ⟨entryOf c EntryStatus.Active,
          List.mem_append_right _ (by simp), rfl, ?_, ?_⟩
        · show c.requirementId = e.requirementId
          rw [hr1, hck.1]
        · show c.reportingPeriod = e.reportingPeriod
          rw [hp1, hck.2]
      · obtain ⟨a, haMem, haAct, haRid, haPer⟩ := h3 e1 he1
        have haK : activeKeyP c.requirementId c.reportingPeriod a = false := by
          rw [Bool.eq_false_iff]
          intro hc
          obtain ⟨c1, c2, _⟩ := (activeKeyP_iff _ _ a).mp hc
          refine hck ⟨?_, ?_⟩
          · rw [← haRid]
            exact c1
          · rw [← haPer]
            exact c2
        refine ⟨a,
          List.mem_append_left _ (supersedeKey_mem_of_mem _ _ haMem haK),
          haAct, ?_, ?_⟩
        · rw [hr1]
          exact haRid
        · rw [hp1]
          exact haPer
    · have heeq : e = entryOf c EntryStatus.Active := by simpa using he
      exact ⟨entryOf c EntryStatus.Active, List.mem_append_right _ (by simp),
        rfl, by rw [heeq], by rw [heeq]⟩

/-- A commit-only ledger keeps every entry Active or Superseded. -/
theorem activeOrSuperseded_commit (ledger : List LedgerEntry) (c : CommitReq)
    (h4 : ActiveOrSuperseded ledger) : ActiveOrSuperseded (commit ledger c) := by
  rw [commit]
  by_cases hb : beatsExisting ledger c = true
  · rw [if_pos hb]
    intro e hemem
    rcases List.mem_append.mp hemem with he | he
    · exact h4 e he
    · have heeq : e = entryOf c EntryStatus.Superseded := by simpa using he
      rw [heeq]
      exact Or.inr rfl
  · rw [if_neg hb]
    intro e hemem
    rcases List.mem_append.mp hemem with he | he
    · obtain ⟨e1, he1, _, _, _, hcase⟩ := mem_supersedeKey _ _ _ _ he
      rcases hcase with ⟨_, heq⟩ | ⟨_, heq⟩
      · rw [heq]
        exact Or.inr rfl
      · rw [heq]
        exact h4 e1 he1
    · have heeq : e = entryOf c EntryStatus.Active := by simpa using he
      rw [heeq]
      exact Or.inl rfl

/-- Any sequence of ledger operations preserves the single-Active
invariant. -/
theorem atMostOneActive_applyOps (ops : List LedgerOp) (ledger : List LedgerEntry)
    (h : AtMostOneActive ledger) : AtMostOneActive (applyOps ops ledger) := by
  induction ops generalizing ledger with
  | nil => exact h
  | cons op ops ih =>
    have hstep : applyOps (op :: ops) ledger = applyOps ops (applyOp ledger op) :=
      rfl
    rw [hstep]
    cases op with
    | commitOp c => exact ih _ (atMostOneActive_commit _ _ h)
    | expireOp n => exact ih _ (atMostOneActive_expireSweep _ _ h)

/-- Any sequence of commits preserves the full commit-only invariant
bundle. -/
theorem commitInv_applyCommits (cs : List CommitReq) (ledger : List LedgerEntry)
    (h1 : AtMostOneActive ledger) (h2 : ActiveIsMax ledger)
    (h3 : KeyHasActive ledger) (h4 : ActiveOrSuperseded ledger) :
    AtMostOneActive (applyCommits cs ledger) ∧
    ActiveIsMax (applyCommits cs ledger) ∧
    KeyHasActive (applyCommits cs ledger) ∧
    ActiveOrSuperseded (applyCommits cs ledger) := by
  induction cs generalizing ledger with
  | nil => exact ⟨h1, h2, h3, h4⟩
  | cons c cs ih =>
    have hstep : applyCommits (c :: cs) ledger = applyCommits cs (commit ledger c) :=
      rfl
    rw [hstep]
    exact ih _ (atMostOneActive_commit _ _ h1) (activeIsMax_commit _ _ h1 h2 h3)
      (keyHasActive_commit _ _ h3) (activeOrSuperseded_commit _ _ h4)

/-- Claim C5: in every Evidence Ledger state reachable from the empty
ledger by commits and expiry sweeps, at most one entry per
(requirementId, reportingPeriod) key is Active; in commit-only histories
every committed key retains an Active entry, that Active entry has the
highest confidence recorded for the key, and every other entry is
Superseded; concretely, commits scored 0.80 then 0.91 for the same key
leave the first entry Superseded and the second Active. -/
theorem ledger_active_invariant :
    (∀ ops : List LedgerOp, AtMostOneActive (applyOps ops [])) ∧
    (∀ cs : List CommitReq,
      KeyHasActive (applyCommits cs []) ∧
      ActiveIsMax (applyCommits cs []) ∧
      ActiveOrSuperseded (applyCommits cs [])) ∧
    applyCommits [⟨"E2-4", "dp-1", "2024", 80, 0, 365⟩,
        ⟨"E2-4", "dp-2", "2024", 91, 10, 375⟩] []
      = [⟨"E2-4", "dp-1", "2024", 80, 0, 365, EntryStatus.Superseded⟩,
         ⟨"E2-4", "dp-2", "2024", 91, 10, 375, EntryStatus.Active⟩] := by
  have hempty1 : AtMostOneActive ([] : List LedgerEntry) := by
    intro rid p
    simp [activeCount]
  have hempty2 : ActiveIsMax ([] : List LedgerEntry) := by
    intro e he
    simp at he
  have hempty3 : KeyHasActive ([] : List LedgerEntry) := by
    intro e he
    simp at he
  have hempty4 : ActiveOrSuperseded ([] : List LedgerEntry) := by
    intro e he
    simp at he
  refine ⟨fun ops => atMostOneActive_applyOps ops [] hempty1,
    fun cs => ?_, by decide⟩
  obtain ⟨_, hA, hK, hS⟩ :=
    commitInv_applyCommits cs [] hempty1 hempty2 hempty3 hempty4
  exact ⟨hK, hA, hS⟩

end ESG

namespace ESG

/-- When the mapped keys of a list are distinct, at most one element
maps to any given key. -/
theorem countP_key_le_one {α β : Type _} [DecidableEq β] (f : α → β)
    (l : List α) (h : (l.map f).Nodup) (k : β) :
    l.countP (fun x => decide (f x = k)) ≤ 1 := by
  induction l with
  | nil => simp
  | cons x xs ih =>
    rw [List.map_cons, List.nodup_cons] at h
    rw [List.countP_cons]
    by_cases hx : f x = k
    · have hz : xs.countP (fun y => decide (f y = k)) = 0 := by
        rw [List.countP_eq_zero]
        intro y hy hpy
        apply h.1
        rw [List.mem_map]
        have hyk : f y = k := by simpa using hpy
        exact ⟨y, hy, hyk.trans hx.symm⟩
      simp [hx, hz]
    · have hxs := ih h.2
      simpa [hx] using hxs

/-- The reconciliation step never changes an alert's dedupe key, and an
alert open afterwards was open before. -/
theorem refreshOrClose_cases (now : Nat) (p : Period) (gaps : List Gap)
    (a : Alert) :
    (refreshOrClose now p gaps a).dedupeKey = a.dedupeKey ∧
    ((refreshOrClose now p gaps a).closed = false → a.closed = false) := by
  rw [refreshOrClose]
  by_cases hc : a.closed
  · simp [hc]
  · rcases hf : gaps.find? (fun g => decide (gapKey p g = a.dedupeKey)) with _ | g
    · simp [hc, hf]
    · simp [hc, hf]

/-- Boolean key membership agrees with list membership. -/
theorem keyElem_iff (k : DedupeKey) (ks : List DedupeKey) :
    keyElem k ks = true ↔ k ∈ ks := by
  rw [keyElem, List.any_eq_true]
  constructor
  · rintro ⟨x, hx, hxk⟩
    have hxe : x = k := by simpa using hxk
    exact hxe ▸ hx
  · intro h
    exact ⟨k, h, by simp⟩

/-- Membership in the open-key list. -/
theorem mem_openKeys_iff (k : DedupeKey) (st : List Alert) :
    k ∈ openKeys st ↔ ∃ a ∈ st, a.closed = false ∧ a.dedupeKey = k := by
  constructor
  · intro h
    rw [openKeys] at h
    obtain ⟨a, haf, hk⟩ := List.mem_map.mp h
    exact ⟨a, List.mem_of_mem_filter haf,
      by simpa [isOpen] using List.of_mem_filter haf, hk⟩
  · rintro ⟨a, ham, hop, hk⟩
    rw [openKeys]
    exact List.mem_map.mpr ⟨a, List.mem_filter.mpr ⟨ham, by simp [isOpen, hop]⟩, hk⟩

/-- Refreshing and closing cannot increase the number of open alerts on
any key. -/
theorem openCount_refreshOrClose_le (now : Nat) (p : Period) (gaps : List Gap)
    (st : List Alert) (k : DedupeKey) :
    openCount (st.map (refreshOrClose now p gaps)) k ≤ openCount st k := by
  rw [openCount, List.countP_map, openCount]
  apply List.countP_mono_left
  intro a _ hpa
  simp only [Function.comp_apply, Bool.and_eq_true, decide_eq_true_eq,
    isOpen, Bool.not_eq_true'] at hpa
  have hc := refreshOrClose_cases now p gaps a
  simp only [Bool.and_eq_true, decide_eq_true_eq, isOpen, Bool.not_eq_true']
  exact ⟨hc.2 hpa.1, by rw [← hc.1]; exact hpa.2⟩

/-- One reconciliation cycle preserves the open-alert deduplication
invariant, provided the cycle's Gap set has no duplicate dedupe keys. -/
theorem openDedupInv_reconcile (now : Nat) (p : Period) (gaps : List Gap)
    (st : List Alert) (hnd : (gaps.map (gapKey p)).Nodup)
    (h : OpenDedupInv st) : OpenDedupInv (reconcile now p gaps st) := by
  intro k
  rw [reconcile, openCount, List.countP_append]
  have hmap_le : (st.map (refreshOrClose now p gaps)).countP
      (fun a => isOpen a && decide (a.dedupeKey = k)) ≤ openCount st k := by
    have := openCount_refreshOrClose_le now p gaps st k
    rw [openCount] at this
    exact this
  have hcreated : ((gaps.filter
        (fun g => !(keyElem (gapKey p g) (openKeys st)))).map
        (mkAlert now p)).countP
      (fun a => isOpen a && decide (a.dedupeKey = k)) ≤ 1 := by
    rw [List.countP_map]
    have hpt : ∀ g : Gap,
        ((fun a => isOpen a && decide (a.dedupeKey = k)) ∘ mkAlert now p) g
          = decide (gapKey p g = k) := by
      intro g
      simp [Function.comp, mkAlert, isOpen]
    calc (gaps.filter (fun g => !(keyElem (gapKey p g) (openKeys st)))).countP
          ((fun a => isOpen a && decide (a.dedupeKey = k)) ∘ mkAlert now p)
        = (gaps.filter (fun g => !(keyElem (gapKey p g) (openKeys st)))).countP
          (fun g => decide (gapKey p g = k)) := List.countP_congr
            (fun g _ => by rw [hpt g])
      _ ≤ gaps.countP (fun g => decide (gapKey p g = k)) :=
          (List.filter_sublist gaps).countP_le _
      _ ≤ 1 := countP_key_le_one (gapKey p) gaps hnd k
  by_cases hz : ((gaps.filter
        (fun g => !(keyElem (gapKey p g) (openKeys st)))).map
        (mkAlert now p)).countP
      (fun a => isOpen a && decide (a.dedupeKey = k)) = 0
  · have h1 := h k
    omega
  · have hpos := Nat.pos_of_ne_zero hz
    obtain ⟨a, haMem, hpa⟩ := List.countP_pos_iff.mp hpos
    obtain ⟨g, hgf, rfl⟩ := List.mem_map.mp haMem
    have hgk : gapKey p g = k := by
      simpa [mkAlert, isOpen] using hpa
    have hnot : k ∉ openKeys st := by
      have hflt := List.of_mem_filter hgf
      rw [Bool.not_eq_true'] at hflt
      rw [← hgk]
      intro hmem
      have hke : keyElem (gapKey p g) (openKeys st) = true :=
        (keyElem_iff _ _).mpr hmem
      rw [hke] at hflt
      cases hflt
    have hmap0 : (st.map (refreshOrClose now p gaps)).countP
        (fun a => isOpen a && decide (a.dedupeKey = k)) = 0 := by
      rw [List.countP_eq_zero]
      intro b hbMem hpb
      obtain ⟨b0, hb0, rfl⟩ := List.mem_map.mp hbMem
      simp only [Bool.and_eq_true, decide_eq_true_eq, isOpen,
        Bool.not_eq_true'] at hpb
      have hc := refreshOrClose_cases now p gaps b0
      apply hnot
      rw [mem_openKeys_iff]
      exact ⟨b0, hb0, hc.2 hpb.1, by rw [← hc.1]; exact hpb.2⟩
    omega

/-- Every sequence of reconciliation cycles with duplicate-free Gap keys
preserves the deduplication invariant. -/
theorem openDedupInv_applyCycles (cycles : List DetectionCycle)
    (st : List Alert)
    (hnd : ∀ c ∈ cycles, (c.gaps.map (gapKey c.period)).Nodup)
    (h : OpenDedupInv st) : OpenDedupInv (applyCycles cycles st) := by
  induction cycles generalizing st with
  | nil => exact h
  | cons c cs ih =>
    have hstep : applyCycles (c :: cs) st = applyCycles cs (applyCycle st c) :=
      rfl
    rw [hstep]
    exact ih _ (fun c2 hc2 => hnd c2 (List.mem_cons_of_mem c hc2))
      (openDedupInv_reconcile c.now c.period c.gaps st
        (hnd c (List.mem_cons_self c cs)) h)

/-- Claim C7: across every sequence of detection/reconciliation cycles
whose Gap sets carry duplicate-free dedupe keys, no dedupe key ever has
two alerts simultaneously in the created-but-not-closed state; and
re-detection of a Gap whose key already has an open alert refreshes that
alert (keeping it open with its original firstSeenAt) while the cycle
creates no new alert carrying that key. -/
theorem alert_dedupe_invariant (cycles : List DetectionCycle)
    (hnd : ∀ c ∈ cycles, (c.gaps.map (gapKey c.period)).Nodup) :
    OpenDedupInv (applyCycles cycles []) ∧
    (∀ (now : Nat) (p : Period) (gaps : List Gap) (st : List Alert) (a : Alert),
      a ∈ st → a.closed = false → (∃ g ∈ gaps, gapKey p g = a.dedupeKey) →
      refreshOrClose now p gaps a ∈ reconcile now p gaps st ∧
      (refreshOrClose now p gaps a).closed = false ∧
      (refreshOrClose now p gaps a).firstSeenAt = a.firstSeenAt ∧
      ∀ b ∈ (gaps.filter
          (fun g => !(keyElem (gapKey p g) (openKeys st)))).map (mkAlert now p),
        b.dedupeKey ≠ a.dedupeKey) := by
  constructor
  · apply openDedupInv_applyCycles cycles [] hnd
    intro k
    simp [openCount]
  · intro now p gaps st a ham hop hex
    have hfind : ∃ g1, gaps.find? (fun g => decide (gapKey p g = a.dedupeKey))
        = some g1 := by
      rcases hf : gaps.find? (fun g => decide (gapKey p g = a.dedupeKey))
        with _ | g1
      · exfalso
        obtain ⟨g, hg, hgk⟩ := hex
        have := List.find?_eq_none.mp hf g hg
        simp [hgk] at this
      · exact ⟨g1, rfl⟩
    obtain ⟨g1, hg1⟩ := hfind
    refine ⟨?_, ?_, ?_, ?_⟩
    · rw [reconcile]
      exact List.mem_append_left _ (List.mem_map.mpr ⟨a, ham, rfl⟩)
    · rw [refreshOrClose, if_neg (by simp [hop]), hg1]
      exact hop
    · rw [refreshOrClose, if_neg (by simp [hop]), hg1]
    · intro b hb hbk
      obtain ⟨g2, hg2f, rfl⟩ := List.mem_map.mp hb
      have hflt := List.of_mem_filter hg2f
      rw [Bool.not_eq_true'] at hflt
      have hkeymem : (mkAlert now p g2).dedupeKey ∈ openKeys st := by
        rw [hbk, mem_openKeys_iff]
        exact ⟨a, ham, hop, rfl⟩
      have : keyElem (gapKey p g2) (openKeys st) = true :=
        (keyElem_iff _ _).mpr hkeymem
      rw [this] at hflt
      cases hflt

/-- Witness for alert_dedupe_invariant: two cycles re-detecting the same
Expiring Gap for E2-4 keep a single open alert for its dedupe key. -/
theorem alert_dedupe_invariant_witness :
    (∀ c ∈ [(⟨340, "2024", [⟨"E2-4", GapReason.Expiring, some 25, false⟩]⟩ :
        DetectionCycle),
        ⟨355, "2024", [⟨"E2-4", GapReason.Expiring, some 10, false⟩]⟩],
      (c.gaps.map (gapKey c.period)).Nodup) ∧
    OpenDedupInv (applyCycles
      [⟨340, "2024", [⟨"E2-4", GapReason.Expiring, some 25, false⟩]⟩,
       ⟨355, "2024", [⟨"E2-4", GapReason.Expiring, some 10, false⟩]⟩] []) :=
  ⟨by decide,
    (alert_dedupe_invariant
      [⟨340, "2024", [⟨"E2-4", GapReason.Expiring, some 25, false⟩]⟩,
       ⟨355, "2024", [⟨"E2-4", GapReason.Expiring, some 10, false⟩]⟩]
      (by decide)).1⟩

end ESG
